import Mathlib

/-!
Shallow embedding of the Agriarche market-intelligence pipeline
(`dashboard.py` and `data_model.py`) and proofs about it.

Cells and column names are modelled as `String`; prices and statistics as
`ℚ` (the numeric computations the claims mention are exact on the inputs
involved, so rationals are a faithful model of the arithmetic performed).
Python's `str.lower` / `str.strip` are modelled for ASCII text, which is
all the repository's keyword tables use.
-/

namespace Agriarche

/-- ASCII lower-casing of a character, as Python `str.lower` acts on ASCII. -/
def lowerChar (c : Char) : Char :=
  if 'A' ≤ c ∧ c ≤ 'Z' then Char.ofNat (c.toNat + 32) else c

/-- ASCII upper-casing of a character, as Python `str.upper` acts on ASCII. -/
def upperChar (c : Char) : Char :=
  if 'a' ≤ c ∧ c ≤ 'z' then Char.ofNat (c.toNat - 32) else c

/-- Python `s.lower()` (ASCII fragment). -/
def lower (s : String) : String := ⟨s.data.map lowerChar⟩

/-- Python `s.strip()`: drop leading and trailing whitespace. -/
def strip (s : String) : String :=
  ⟨((s.data.dropWhile Char.isWhitespace).reverse.dropWhile Char.isWhitespace).reverse⟩

/-- Python `s.capitalize()`: first character upper-cased, the rest lower-cased. -/
def capitalize (s : String) : String :=
  match s.data with
  | [] => s
  | c :: cs => ⟨upperChar c :: cs.map lowerChar⟩

/-- Predicate: `pat` occurs as a contiguous sublist of `l` (Python `pat in s` on the
character lists). -/
def infixOf (pat : List Char) : List Char → Bool
  | [] => pat.isEmpty
  | c :: rest => pat.isPrefixOf (c :: rest) || infixOf pat rest

/-- Python `pat in s` for strings. -/
def containsSub (s pat : String) : Bool := infixOf pat.data s.data

/-- Embeds `dashboard.py` `normalize_name`: syncs various commodity spellings to a
master name.  Lower-cases and strips the label, then tests an ordered chain
of substring rules, falling back to the capitalized label. -/
def normalize_name (text : String) : String :=
  let t := strip (lower text)
  if containsSub t "soya" || containsSub t "soy" then "Soybeans"
  else if containsSub t "maize" || containsSub t "corn" then "Maize"
  else if containsSub t "cowpea" && containsSub t "brown" then "Cowpea Brown"
  else if containsSub t "cowpea" && containsSub t "white" then "Cowpea White"
  else if containsSub t "honey" then "Honey beans"
  else if containsSub t "rice" && containsSub t "paddy" then "Rice Paddy"
  else if containsSub t "rice" && containsSub t "process" then "Rice processed"
  else if containsSub t "sorghum" && containsSub t "red" then "Sorghum red"
  else if containsSub t "sorghum" && containsSub t "white" then "Sorghum white"
  else if containsSub t "sorghum" && containsSub t "yellow" then "Sorghum yellow"
  else if containsSub t "sorghum" then "Sorghum"
  else if containsSub t "groundnut" && containsSub t "gargaja" then "Groundnut gargaja"
  else if containsSub t "groundnut" && containsSub t "kampala" then "Groundnut kampala"
  else capitalize t

example : normalize_name "  SOYA beans " = "Soybeans" := by decide

/-- C4: the claim as frozen is false: the label "soy sorghum red" contains
both "sorghum" and "red" (case-insensitively), yet `normalize_name` returns
"Soybeans" — the earlier soy rule fires first — not "Sorghum red". -/
theorem claims_c4_counterexample :
    containsSub (strip (lower "soy sorghum red")) "sorghum" = true ∧
    containsSub (strip (lower "soy sorghum red")) "red" = true ∧
    normalize_name "soy sorghum red" = "Soybeans" ∧
    normalize_name "soy sorghum red" ≠ "Sorghum red" := by
  decide

/-- C4 (amended): for every raw label containing both "sorghum" and "red"
(case-insensitive), `normalize_name` never returns the bare "Sorghum"
fallback — the compound sorghum+red rule is checked before the bare
"sorghum" rule — and it returns exactly "Sorghum red" provided none of the
rules that precede the sorghum rules in the chain (soya/soy, maize/corn,
cowpea+brown, cowpea+white, honey, rice+paddy, rice+process) matches. -/
theorem claims_c4_amended (t0 : String)
    (hs : containsSub (strip (lower t0)) "sorghum" = true)
    (hr : containsSub (strip (lower t0)) "red" = true) :
    normalize_name t0 ≠ "Sorghum" ∧
    ((containsSub (strip (lower t0)) "soya" || containsSub (strip (lower t0)) "soy") = false →
     (containsSub (strip (lower t0)) "maize" || containsSub (strip (lower t0)) "corn") = false →
     (containsSub (strip (lower t0)) "cowpea" && containsSub (strip (lower t0)) "brown") = false →
     (containsSub (strip (lower t0)) "cowpea" && containsSub (strip (lower t0)) "white") = false →
     containsSub (strip (lower t0)) "honey" = false →
     (containsSub (strip (lower t0)) "rice" && containsSub (strip (lower t0)) "paddy") = false →
     (containsSub (strip (lower t0)) "rice" && containsSub (strip (lower t0)) "process") = false →
     normalize_name t0 = "Sorghum red") := by
  constructor
  · unfold normalize_name
    simp only [hs, hr, Bool.and_self, if_true]
    repeat' split
    all_goals decide
  · intro h1 h2 h3 h4 h5 h6 h7
    unfold normalize_name
    simp only [hs, hr, h1, h2, h3, h4, h5, h6, h7, Bool.and_self, if_true, if_false]
    decide

/-- Witness for `claims_c4_amended` at the concrete label "Red Sorghum". -/
theorem claims_c4_witness : normalize_name "Red Sorghum" = "Sorghum red" :=
  (claims_c4_amended "Red Sorghum" (by decide) (by decide)).2 (by decide) (by decide)
    (by decide) (by decide) (by decide) (by decide) (by decide)

/-!
### Forecast Trainer (`data_model.py`)

`prepare` groups the rows by commodity, sorts each group chronologically
and computes rolling features over the group's price column; `prices`
below is one group's chronologically sorted price column (rows whose price
failed numeric parsing are dropped before training and carry no signal the
claims are about).
-/

/-- The trailing window of `rolling(30, min_periods=1)` at row `i`: rows
`max(0, i-29) .. i` of the group's price column. -/
def window30 (prices : List ℚ) (i : Nat) : List ℚ :=
  (prices.take (i + 1)).drop (i + 1 - 30)

/-- Embeds `data_model.py` `prepare`: the `ma_30` feature, the 30-row trailing
mean `g["price"].rolling(30, min_periods=1).mean()` at row `i`. -/
def ma_30 (prices : List ℚ) (i : Nat) : ℚ :=
  (window30 prices i).sum / (window30 prices i).length

/-- Embeds `data_model.py` line 123:
`np.where(df["price"] < df["ma_30"], "DON\x27T BUY", "BUY")`. -/
def signal_row (price ma : ℚ) : String :=
  if price < ma then "DON\x27T BUY" else "BUY"

/-- The derived signal column of a prepared commodity group. -/
def signals (prices : List ℚ) : List String :=
  (List.range prices.length).map fun i => signal_row (prices.getD i 0) (ma_30 prices i)

/-- C2: the claim as frozen is false: at prices `[100, 10]` the second row's
price 10 is below its trailing mean `ma_30 = 55`, yet the code derives
"DON\x27T BUY", not the "BUY" the claim requires there. -/
theorem claims_c2_counterexample :
    (10 : ℚ) < ma_30 [100, 10] 1 ∧
    signals [100, 10] = ["BUY", "DON\x27T BUY"] ∧
    signal_row 10 (ma_30 [100, 10] 1) ≠ "BUY" := by
  have hw1 : window30 [100, 10] 1 = [100, 10] := rfl
  have hw0 : window30 [100, 10] 0 = [100] := rfl
  have hma1 : ma_30 [100, 10] 1 = 55 := by unfold ma_30; rw [hw1]; norm_num
  have hma0 : ma_30 [100, 10] 0 = 100 := by unfold ma_30; rw [hw0]; norm_num
  refine ⟨by rw [hma1]; norm_num, ?_, by rw [hma1]; norm_num [signal_row]; decide⟩
  unfold signals
  norm_num [List.range_succ, List.getD_cons_zero, List.getD_cons_succ, hma1, hma0, signal_row]

/-- C2 (amended): for every prepared row, the derived signal is
"DON\x27T BUY" exactly when the row's price is below its commodity's
30-row trailing mean (`ma_30`), and "BUY" otherwise. -/
theorem claims_c2_amended (prices : List ℚ) (i : Nat) (h : i < prices.length) :
    (signals prices).get? i = some (signal_row (prices.getD i 0) (ma_30 prices i)) ∧
    (signal_row (prices.getD i 0) (ma_30 prices i) = "DON\x27T BUY" ↔
      prices.getD i 0 < ma_30 prices i) ∧
    (signal_row (prices.getD i 0) (ma_30 prices i) = "BUY" ↔
      ¬ prices.getD i 0 < ma_30 prices i) := by
  refine ⟨?_, ?_, ?_⟩
  · simp [signals, h]
  · by_cases hlt : prices.getD i 0 < ma_30 prices i <;> simp [signal_row, hlt]
  · by_cases hlt : prices.getD i 0 < ma_30 prices i <;> simp [signal_row, hlt]

/-- Witness for `claims_c2_amended` at the concrete group `[100, 10]`, row 0. -/
theorem claims_c2_witness :
    (signals [100, 10]).get? 0 = some (signal_row (([100, 10] : List ℚ).getD 0 0) (ma_30 [100, 10] 0)) ∧
    (signal_row (([100, 10] : List ℚ).getD 0 0) (ma_30 [100, 10] 0) = "DON\x27T BUY" ↔
      (([100, 10] : List ℚ).getD 0 0) < ma_30 [100, 10] 0) ∧
    (signal_row (([100, 10] : List ℚ).getD 0 0) (ma_30 [100, 10] 0) = "BUY" ↔
      ¬ (([100, 10] : List ℚ).getD 0 0) < ma_30 [100, 10] 0) :=
  claims_c2_amended [100, 10] 0 (by decide)

/-- Embeds `train_and_save`: `split_idx = int(len(X) * 0.8)`.  The fractional part
of the exact product `0.8·n` is one of 0, 0.2, 0.4, 0.6, 0.8, and the
double-precision product errs by at most about `n·2⁻⁵²`, so for every row
count a spreadsheet can hold the rounded product lies in the same unit
interval as the exact one (at the integer itself when `5 ∣ n`, since
`fl(0.8) > 0.8`), and Python's `int` truncation yields `⌊0.8·n⌋ = 4n/5`. -/
def split_idx (n : Nat) : Nat := 4 * n / 5

/-- Embeds `X_train, X_test = X.iloc[:split_idx], X.iloc[split_idx:]` — a purely
positional split, no shuffling. -/
def trainRows {α : Type} (xs : List α) : List α := xs.take (split_idx xs.length)

/-- The complementary test portion of the split. -/
def testRows {α : Type} (xs : List α) : List α := xs.drop (split_idx xs.length)

/-- C7: the trainer's split is positional and order-preserving — train and
test concatenate back to the original row sequence, the training set is
exactly the first `⌊0.8·n⌋` rows and the test set the rest — and on 100
rows the training set is rows 0–79 and the test set rows 80–99. -/
theorem claims_c7 {α : Type} (xs : List α) :
    trainRows xs ++ testRows xs = xs ∧
    trainRows xs = xs.take (4 * xs.length / 5) ∧
    testRows xs = xs.drop (4 * xs.length / 5) ∧
    (xs.length = 100 → trainRows xs = xs.take 80 ∧ testRows xs = xs.drop 80) := by
  refine ⟨List.take_append_drop _ _, rfl, rfl, ?_⟩
  intro h
  simp [trainRows, testRows, split_idx, h]

/-- Witness for `claims_c7` at the concrete 100-row sequence `0, …, 99`. -/
theorem claims_c7_witness :
    trainRows (List.range 100) = (List.range 100).take 80 ∧
    testRows (List.range 100) = (List.range 100).drop 80 :=
  (claims_c7 (List.range 100)).2.2.2 (by simp)

/-!
### Filter/Aggregation and cross-source comparison (`dashboard.py`)

The statistics fed into these rules (`mean`, `max`, `min` over the
filtered records) are exact rational computations on the inputs involved.
-/

/-- Embeds `dashboard.py` line 609: the external mean bag price divided by the
fixed constant 100 to approximate a per-kg price. -/
def live_val_kg (bag : ℚ) : ℚ := bag / 100

/-- Embeds `dashboard.py` lines 612–613: percentage difference of the converted
external price against the internal mean, guarded on a nonzero mean. -/
def perc_change (hist live_kg : ℚ) : ℚ :=
  if hist ≠ 0 then (live_kg - hist) / hist * 100 else 0

/-- C5: the cross-source comparison divides the external mean bag price by
the fixed constant 100 and takes the percentage difference against the
internal per-kg mean; internal mean 500 and external bag mean 60000 give
converted per-kg 600 and a 20% difference. -/
theorem claims_c5 (hist bag : ℚ) (h : hist ≠ 0) :
    live_val_kg bag = bag / 100 ∧
    perc_change hist (live_val_kg bag) = (bag / 100 - hist) / hist * 100 ∧
    live_val_kg 60000 = 600 ∧
    perc_change 500 (live_val_kg 60000) = 20 := by
  refine ⟨rfl, ?_, by norm_num [live_val_kg], by norm_num [perc_change, live_val_kg]⟩
  simp [perc_change, live_val_kg, h]

/-- Witness for `claims_c5` at internal mean 500 and bag price 60000. -/
theorem claims_c5_witness :
    live_val_kg 60000 = 60000 / 100 ∧
    perc_change 500 (live_val_kg 60000) = (60000 / 100 - 500) / 500 * 100 ∧
    live_val_kg 60000 = 600 ∧
    perc_change 500 (live_val_kg 60000) = 20 :=
  claims_c5 500 60000 (by norm_num)

/-- Embeds `dashboard.py` line 496: volatility of the filtered record set,
guarded on a positive minimum price. -/
def volatility (minp maxp : ℚ) : ℚ :=
  if minp > 0 then (maxp - minp) / minp * 100 else 0

/-- The three Market Advisor branches of `dashboard.py` lines 499–507. -/
inductive Advice where
  | highVolatility
  | buyWindow
  | stable
deriving DecidableEq

/-- Embeds `dashboard.py` lines 499–507: high volatility when `volatility > 20`,
else the buy window when the filtered mean is below the commodity's
all-time mean, else stable. -/
def advisor (minp maxp avgp annual : ℚ) : Advice :=
  if volatility minp maxp > 20 then .highVolatility
  else if avgp < annual then .buyWindow
  else .stable

/-- C6: with a positive filtered minimum price, the advisor classifies
high-volatility exactly when `(max−min)/min·100 > 20`; otherwise it is the
buy window exactly when the filtered mean is strictly below the all-time
mean, and stable otherwise.  In particular min 100 / max 131 is
high-volatility and min 100 / max 115 is not. -/
theorem claims_c6 (minp maxp avgp annual : ℚ) (h : 0 < minp) :
    (advisor minp maxp avgp annual = .highVolatility ↔ (maxp - minp) / minp * 100 > 20) ∧
    ((maxp - minp) / minp * 100 ≤ 20 →
      (advisor minp maxp avgp annual = .buyWindow ↔ avgp < annual)) ∧
    ((maxp - minp) / minp * 100 ≤ 20 → ¬ avgp < annual →
      advisor minp maxp avgp annual = .stable) ∧
    advisor 100 131 avgp annual = .highVolatility ∧
    advisor 100 115 avgp annual ≠ .highVolatility := by
  have hv : volatility minp maxp = (maxp - minp) / minp * 100 := if_pos h
  refine ⟨?_, ?_, ?_, ?_, ?_⟩
  · by_cases hb : (maxp - minp) / minp * 100 > 20
    · simp [advisor, hv, hb]
    · simp [advisor, hv, hb]
      split <;> simp
  · intro hle
    have hnb : ¬ volatility minp maxp > 20 := by rw [hv]; exact not_lt.mpr hle
    by_cases hw : avgp < annual <;> simp [advisor, hnb, hw]
  · intro hle hnw
    have hnb : ¬ volatility minp maxp > 20 := by rw [hv]; exact not_lt.mpr hle
    simp [advisor, hnb, hnw]
  · norm_num [advisor, volatility]
  · have : volatility 100 115 = 15 := by norm_num [volatility]
    simp only [advisor, this]
    norm_num
    split <;> simp

/-- Witness for `claims_c6` at min 100, max 131, filtered mean 90,
all-time mean 95. -/
theorem claims_c6_witness :
    (advisor 100 131 90 95 = .highVolatility ↔ ((131 : ℚ) - 100) / 100 * 100 > 20) ∧
    (((131 : ℚ) - 100) / 100 * 100 ≤ 20 →
      (advisor 100 131 90 95 = .buyWindow ↔ (90 : ℚ) < 95)) ∧
    (((131 : ℚ) - 100) / 100 * 100 ≤ 20 → ¬ (90 : ℚ) < 95 →
      advisor 100 131 90 95 = .stable) ∧
    advisor 100 131 90 95 = .highVolatility ∧
    advisor 100 115 90 95 ≠ .highVolatility :=
  claims_c6 100 131 90 95 (by norm_num)

/-- Division as the partial operation it is in Python: `none` models a
raised `ZeroDivisionError`. -/
def checkedDiv (a b : ℚ) : Option ℚ := if b = 0 then none else some (a / b)

/-- Variant of `volatility` with its division made partial, to show the guard keeps
the zero denominator unreachable. -/
def volatilityChecked (minp maxp : ℚ) : Option ℚ :=
  if minp > 0 then (checkedDiv (maxp - minp) minp).map (· * 100) else some 0

/-- Variant of `perc_change` with its division made partial. -/
def perc_changeChecked (hist live_kg : ℚ) : Option ℚ :=
  if hist ≠ 0 then (checkedDiv (live_kg - hist) hist).map (· * 100) else some 0

/-- C10: both guarded divisions of the aggregation/comparison layer always
succeed — the volatility guard `min > 0` and the comparison guard
`mean ≠ 0` make the zero denominator unreachable — and the checked
computations agree with the total ones. -/
theorem claims_c10 (minp maxp hist live_kg : ℚ) :
    (volatilityChecked minp maxp).isSome = true ∧
    volatilityChecked minp maxp = some (volatility minp maxp) ∧
    (perc_changeChecked hist live_kg).isSome = true ∧
    perc_changeChecked hist live_kg = some (perc_change hist live_kg) := by
  have hv : volatilityChecked minp maxp = some (volatility minp maxp) := by
    by_cases h1 : minp > 0
    · simp [volatilityChecked, volatility, checkedDiv, h1, h1.ne']
    · simp [volatilityChecked, volatility, h1]
  have hp : perc_changeChecked hist live_kg = some (perc_change hist live_kg) := by
    by_cases h2 : hist = 0
    · simp [perc_changeChecked, perc_change, h2]
    · simp [perc_changeChecked, perc_change, checkedDiv, h2]
  exact ⟨by simp [hv], hv, by simp [hp], hp⟩

/-- Witness for `claims_c10` at min 10, max 20, internal mean 30,
converted external price 40. -/
theorem claims_c10_witness :
    (volatilityChecked 10 20).isSome = true ∧
    volatilityChecked 10 20 = some (volatility 10 20) ∧
    (perc_changeChecked 30 40).isSome = true ∧
    perc_changeChecked 30 40 = some (perc_change 30 40) :=
  claims_c10 10 20 30 40

/-!
### Column Detector and Internal Dataset Loader (`dashboard.py` 213–250)
-/

/-- Date-role keywords of `load_kasuwa_internal_data` line 228. -/
def dateKws : List String := ["timestamp", "start time", "date"]

/-- Price-role keywords of line 229. -/
def priceKws : List String := ["price_per_kg", "price", "clean"]

/-- Commodity-role keyword of line 230. -/
def commodityKws : List String := ["commodity"]

/-- Market-role keywords of line 231. -/
def marketKws : List String := ["market", "location"]

/-- Column Detector: the first column, in left-to-right order, whose
lower-cased name contains one of the role's keywords —
`next((c for c in df.columns if any(k in c.lower() for k in kws)), None)`. -/
def findCol (kws : List String) (cols : List String) : Option String :=
  cols.find? fun c => kws.any fun k => containsSub (lower c) k

/-- Decomposition of a successful `List.find?`: the found element splits
the list, satisfies the predicate, and everything before it does not. -/
theorem find?_first {α : Type} (p : α → Bool) :
    ∀ (l : List α) (c : α), l.find? p = some c →
      ∃ pre post, l = pre ++ c :: post ∧ p c = true ∧ ∀ x ∈ pre, p x = false
  | [], c, h => by simp [List.find?] at h
  | a :: l, c, h => by
    by_cases ha : p a = true
    · rw [List.find?_cons_of_pos _ ha] at h
      cases h
      exact ⟨[], l, rfl, ha, by simp⟩
    · rw [List.find?_cons_of_neg _ (by simpa using ha)] at h
      obtain ⟨pre, post, rfl, hc, hpre⟩ := find?_first p l c h
      refine ⟨a :: pre, post, rfl, hc, ?_⟩
      intro x hx
      rcases List.mem_cons.mp hx with rfl | hx
      · simpa using ha
      · exact hpre x hx

/-- C8: the Column Detector scans columns in their original left-to-right
order and returns the first whose lower-cased name contains a keyword of
the role's set (every earlier column contains none); on the headers
`["Start Time", "Clean Price", "Commodity Name", "Market"]` it returns
date "Start Time", price "Clean Price", commodity "Commodity Name" and
market "Market". -/
theorem claims_c8 (kws cols : List String) (c : String)
    (h : findCol kws cols = some c) :
    (∃ pre post, cols = pre ++ c :: post ∧
      (kws.any fun k => containsSub (lower c) k) = true ∧
      ∀ x ∈ pre, (kws.any fun k => containsSub (lower x) k) = false) ∧
    (findCol dateKws ["Start Time", "Clean Price", "Commodity Name", "Market"] =
        some "Start Time" ∧
     findCol priceKws ["Start Time", "Clean Price", "Commodity Name", "Market"] =
        some "Clean Price" ∧
     findCol commodityKws ["Start Time", "Clean Price", "Commodity Name", "Market"] =
        some "Commodity Name" ∧
     findCol marketKws ["Start Time", "Clean Price", "Commodity Name", "Market"] =
        some "Market") :=
  ⟨find?_first _ cols c h, by decide⟩

/-- Witness for `claims_c8`: the date role on the documented headers. -/
theorem claims_c8_witness :
    (∃ pre post,
      ["Start Time", "Clean Price", "Commodity Name", "Market"] = pre ++ "Start Time" :: post ∧
      (dateKws.any fun k => containsSub (lower "Start Time") k) = true ∧
      ∀ x ∈ pre, (dateKws.any fun k => containsSub (lower x) k) = false) ∧
    (findCol dateKws ["Start Time", "Clean Price", "Commodity Name", "Market"] =
        some "Start Time" ∧
     findCol priceKws ["Start Time", "Clean Price", "Commodity Name", "Market"] =
        some "Clean Price" ∧
     findCol commodityKws ["Start Time", "Clean Price", "Commodity Name", "Market"] =
        some "Commodity Name" ∧
     findCol marketKws ["Start Time", "Clean Price", "Commodity Name", "Market"] =
        some "Market") :=
  claims_c8 dateKws ["Start Time", "Clean Price", "Commodity Name", "Market"] "Start Time"
    (by decide)

/-- A raw spreadsheet as read by `pd.read_excel`: header names and rows of
cells, each cell modelled as its text. -/
structure RawTable where
  headers : List String
  rows : List (List String)
deriving DecidableEq

/-- A calendar timestamp as parsed by `pd.to_datetime`. -/
structure Date where
  year : Int
  month : Nat
  day : Nat
deriving DecidableEq

/-- Model of `pandas` `dt.month_name()`. -/
def monthName : Nat → String
  | 1 => "January"
  | 2 => "February"
  | 3 => "March"
  | 4 => "April"
  | 5 => "May"
  | 6 => "June"
  | 7 => "July"
  | 8 => "August"
  | 9 => "September"
  | 10 => "October"
  | 11 => "November"
  | 12 => "December"
  | _ => ""

/-- A cleaned internal record: the derived columns of
`load_kasuwa_internal_data`.  (The code also retains the original columns
and, when no "price_per_kg" column exists, copies `price` into one; no
claim depends on those and they do not affect row counts.) -/
structure PriceRecord where
  ds : Date
  price : ℚ
  commodity : String
  market : String
  year : Int
  month_name : String
  day : Nat
deriving DecidableEq

/-- The loader's result: `pd.DataFrame()` (empty), the raw table passed
through unprocessed, or the cleaned record set. -/
inductive LoadResult where
  | empty
  | raw (t : RawTable)
  | processed (recs : List PriceRecord)
deriving DecidableEq

/-- Number of rows of a loader result. -/
def LoadResult.numRows : LoadResult → Nat
  | .empty => 0
  | .raw t => t.rows.length
  | .processed recs => recs.length

/-- The parts of the runtime environment `load_kasuwa_internal_data`
consults: which paths exist, the (concatenated) results of the two
`glob.glob("predictive*.xlsx")` calls, what `pd.read_excel` yields
(`none` models a raised exception, which the `except` turns into the
empty frame), and the external parsers `pd.to_datetime` / `pd.to_numeric`
with `errors="coerce"` (`none` models a coerced `NaT`/`NaN`). -/
structure Env where
  pathExists : String → Bool
  globPredictive : List String
  readExcel : String → Option RawTable
  toDatetime : String → Option Date
  toNumeric : String → Option ℚ

/-- The cell of `row` in the column named `name`. -/
def cellAt (headers row : List String) (name : String) : Option String :=
  (headers.findIdx? (· == name)).bind row.get?

/-- One row of the internal loader's cleaning: parse the date and the
price (`errors="coerce"` plus the `dropna` on `["ds", "price",
"commodity"]` drops the row when either fails — the normalized commodity,
a string, is never null), normalize the commodity name, strip the market
text (defaulting to the sentinel "Unknown" when no market column was
found), and derive the calendar fields. -/
def processRow (env : Env) (headers : List String) (dcol pcol ccol : String)
    (mcol : Option String) (row : List String) : Option PriceRecord :=
  match (cellAt headers row dcol).bind env.toDatetime,
        (cellAt headers row pcol).bind env.toNumeric with
  | some d, some p =>
      some { ds := d
             price := p
             commodity := normalize_name ((cellAt headers row ccol).getD "")
             market := match mcol with
                       | some m => strip ((cellAt headers row m).getD "")
                       | none => "Unknown"
             year := d.year
             month_name := monthName d.month
             day := d.day }
  | _, _ => none

/-- Embeds `dashboard.py` `load_kasuwa_internal_data` (lines 213–250): locate the
primary spreadsheet (the two exact paths, then the glob fallback's first
hit), read it, strip the header names, detect the column roles, and — only
when date, price and commodity were all found — clean the rows.  When a
required role is missing the function falls through to `return df`: the
raw, header-stripped table is returned unchanged.  A missing file, an
empty glob, or a read exception yields the empty frame. -/
def load_kasuwa_internal_data (env : Env) : LoadResult :=
  let chosen :=
    match ["Predictive Analysis Commodity pricing.xlsx",
           "data/Predictive Analysis Commodity pricing.xlsx"].find? env.pathExists with
    | some f => some f
    | none => env.globPredictive.head?
  match chosen with
  | none => .empty
  | some f =>
    match env.readExcel f with
    | none => .empty
    | some t =>
      let headers := t.headers.map strip
      let market_col := findCol marketKws headers
      match findCol dateKws headers, findCol priceKws headers,
            findCol commodityKws headers with
      | some d, some p, some c =>
          .processed (t.rows.filterMap (processRow env headers d p c market_col))
      | _, _, _ => .raw ⟨headers, t.rows⟩

/-- C9: when neither exactly-named primary path exists and the glob
fallback finds nothing, the internal loader returns the empty frame —
zero rows, no exception escaping the loader. -/
theorem claims_c9 (env : Env)
    (h1 : env.pathExists "Predictive Analysis Commodity pricing.xlsx" = false)
    (h2 : env.pathExists "data/Predictive Analysis Commodity pricing.xlsx" = false)
    (h3 : env.globPredictive = []) :
    load_kasuwa_internal_data env = .empty ∧
    (load_kasuwa_internal_data env).numRows = 0 := by
  have he : load_kasuwa_internal_data env = .empty := by
    unfold load_kasuwa_internal_data
    simp [List.find?, h1, h2, h3]
  exact ⟨he, by rw [he]; rfl⟩

/-- An environment with no spreadsheet at all. -/
def emptyEnv : Env :=
  { pathExists := fun _ => false
    globPredictive := []
    readExcel := fun _ => none
    toDatetime := fun _ => none
    toNumeric := fun _ => none }

/-- Witness for `claims_c9` on the concrete empty environment. -/
theorem claims_c9_witness :
    load_kasuwa_internal_data emptyEnv = .empty ∧
    (load_kasuwa_internal_data emptyEnv).numRows = 0 :=
  claims_c9 emptyEnv rfl rfl rfl

/-- A spreadsheet with date and price columns but no commodity column. -/
def tableNoCommodity : RawTable :=
  { headers := ["Date", "Price"]
    rows := [["2024-01-01", "100"], ["2024-01-02", "200"]] }

/-- An environment in which the primary spreadsheet exists and holds
`tableNoCommodity`. -/
def envNoCommodity : Env :=
  { pathExists := fun p => p == "Predictive Analysis Commodity pricing.xlsx"
    globPredictive := []
    readExcel := fun p =>
      if p == "Predictive Analysis Commodity pricing.xlsx" then some tableNoCommodity
      else none
    toDatetime := fun _ => none
    toNumeric := fun _ => none }

/-- C1: the code contradicts the claim (and §7(b) of its own spec): on a
spreadsheet whose headers lack a commodity column, the loader does not
return an empty result — the `return df` after the role guard hands back
the raw, header-stripped table with both of its rows. -/
theorem claims_c1_code_behavior :
    load_kasuwa_internal_data envNoCommodity = .raw tableNoCommodity ∧
    (load_kasuwa_internal_data envNoCommodity).numRows = 2 := by
  constructor <;> rfl

/-!
### External Dataset Loader header mapping (`dashboard.py` 252–285)
-/

/-- Line 259, `ldf.loc[:, ~ldf.columns.duplicated()]`: keep only the first
occurrence of each identical column name (`seen` accumulates the names
already kept). -/
def keepFirst (seen : List String) : List String → List String
  | [] => []
  | c :: rest => if c ∈ seen then keepFirst seen rest else c :: keepFirst (c :: seen) rest

/-- The deduplication applied before renaming. -/
def dedupeCols (cols : List String) : List String := keepFirst [] cols

/-- The date-like keywords of line 265. -/
def dateLikeKws : List String := ["date", "scraped_at", "time"]

/-- A column name containing a date-like keyword. -/
def isDateLike (c : String) : Bool := dateLikeKws.any fun k => containsSub (lower c) k

/-- The non-date arms of the renaming chain (lines 268–270). -/
def renameOne (c : String) : String :=
  if containsSub (lower c) "price" then "Price"
  else if containsSub (lower c) "commodity" then "Commodity"
  else if containsSub (lower c) "location" || containsSub (lower c) "market" then "Location"
  else c

/-- Lines 261–272: the rename map is built in one left-to-right pass and a
`date_assigned` flag lets only the first date-like column become `Date`;
since after deduplication the names are pairwise distinct, applying the
accumulated dict equals this positional rewrite. -/
def renameCols : Bool → List String → List String
  | _, [] => []
  | dateAssigned, c :: rest =>
    if !dateAssigned && isDateLike c then "Date" :: renameCols true rest
    else renameOne c :: renameCols dateAssigned rest

/-- The full header mapping of the external loader. -/
def mapHeaders (cols : List String) : List String := renameCols false (dedupeCols cols)

/-- C3: the claim as frozen is false: the headers `["Price", "Unit Price"]`
are distinct, so the duplicate filter keeps both, and both names contain
"price", so both are renamed to `Price` — the mapped table has two
`Price` columns, not at most one. -/
theorem claims_c3_counterexample :
    mapHeaders ["Price", "Unit Price"] = ["Price", "Price"] ∧
    ¬ (mapHeaders ["Price", "Unit Price"]).count "Price" ≤ 1 := by
  decide

/-- Lemma: `keepFirst` produces a duplicate-free list avoiding `seen`. -/
theorem keepFirst_nodup : ∀ (cols seen : List String),
    (keepFirst seen cols).Nodup ∧ ∀ x ∈ keepFirst seen cols, x ∉ seen
  | [], seen => by simp [keepFirst]
  | c :: rest, seen => by
    by_cases hc : c ∈ seen
    · simpa [keepFirst, hc] using keepFirst_nodup rest seen
    · obtain ⟨hnd, hni⟩ := keepFirst_nodup rest (c :: seen)
      simp only [keepFirst, hc, ite_false, if_neg, not_false_iff]
      refine ⟨List.nodup_cons.mpr ⟨fun hmem => (hni c hmem) (List.mem_cons_self c _), hnd⟩, ?_⟩
      intro x hx
      rcases List.mem_cons.mp hx with rfl | hx
      · exact hc
      · exact fun hxs => (hni x hx) (List.mem_cons_of_mem _ hxs)

/-- Once the date flag is set, the pass renames each column independently
and never produces another `Date`. -/
theorem renameCols_true (cols : List String) :
    renameCols true cols = cols.map renameOne := by
  induction cols with
  | nil => rfl
  | cons c rest ih => simp [renameCols, ih]

/-- Only the first date-like column is renamed to `Date`; everything
before it (not date-like) and after it goes through `renameOne`. -/
theorem renameCols_false_split (pre : List String) (c : String) (post : List String)
    (hpre : ∀ x ∈ pre, isDateLike x = false) (hc : isDateLike c = true) :
    renameCols false (pre ++ c :: post) =
      pre.map renameOne ++ "Date" :: post.map renameOne := by
  induction pre with
  | nil => simp [renameCols, hc, renameCols_true]
  | cons a pre ih =>
    have ha : isDateLike a = false := hpre a (List.mem_cons_self a _)
    simp [renameCols, ha, ih fun x hx => hpre x (List.mem_cons_of_mem _ hx)]

/-- C3 (amended): before renaming, the external loader keeps only the
first occurrence of each *identical* original column name (the kept
headers are duplicate-free); in the renaming pass only the first date-like
column becomes `Date` — every other column, including later date-like
ones, is rewritten independently by the price/commodity/location arms and
a later date-like column not matching those arms keeps its name.  (As the
counterexample shows, distinct original names mapping to the same target
can still leave duplicate names in the result.) -/
theorem claims_c3_amended (cols pre post : List String) (c : String)
    (hpre : ∀ x ∈ pre, isDateLike x = false) (hc : isDateLike c = true) :
    (dedupeCols cols).Nodup ∧
    mapHeaders cols = renameCols false (dedupeCols cols) ∧
    renameCols true cols = cols.map renameOne ∧
    renameCols false (pre ++ c :: post) =
      pre.map renameOne ++ "Date" :: post.map renameOne ∧
    (∀ x, containsSub (lower x) "price" = false →
      containsSub (lower x) "commodity" = false →
      containsSub (lower x) "location" = false →
      containsSub (lower x) "market" = false →
      renameOne x = x) :=
  ⟨(keepFirst_nodup cols []).1, rfl, renameCols_true cols,
    renameCols_false_split pre c post hpre hc, by
      intro x h1 h2 h3 h4
      simp [renameOne, h1, h2, h3, h4]⟩

/-- Witness for `claims_c3_amended` on concrete headers: dedupe of
`["Price", "Unit Price"]` and the pass over
`["Location", "Scraped_At", "Date"]` (first date-like column second). -/
theorem claims_c3_witness :
    (dedupeCols ["Price", "Unit Price"]).Nodup ∧
    mapHeaders ["Price", "Unit Price"] = renameCols false (dedupeCols ["Price", "Unit Price"]) ∧
    renameCols true ["Price", "Unit Price"] = ["Price", "Unit Price"].map renameOne ∧
    renameCols false (["Location"] ++ "Scraped_At" :: ["Date"]) =
      ["Location"].map renameOne ++ "Date" :: ["Date"].map renameOne ∧
    (∀ x, containsSub (lower x) "price" = false →
      containsSub (lower x) "commodity" = false →
      containsSub (lower x) "location" = false →
      containsSub (lower x) "market" = false →
      renameOne x = x) :=
  claims_c3_amended ["Price", "Unit Price"] ["Location"] ["Date"] "Scraped_At"
    (by decide) (by decide)

end Agriarche
